import Mathlib

/-
Verification of the streaming chat turn logic of the worldbuilding chat
interface.  The definitions below are a shallow embedding of the frontend
code, chiefly `src/frontend/src/hooks/useChat.ts` (the `sendMessage`
streaming loop, which plays the role of the Turn Assembler and the History
Reconciler) and `src/frontend/src/services/api.ts` (the SSE line handling
of `sendMessageStream`).  TypeScript string-union tags are erased at
runtime, so tags are modelled as plain `String`s; optional fields are
modelled as `Option`s; JavaScript library primitives used by the code
(`String.prototype.trim`, string coercion of `undefined`, `JSON.stringify`)
are modelled by explicit executable functions.
-/

set_option maxHeartbeats 1000000

namespace WorldbuildingChat

/-- A content block, from `src/frontend/src/types/chat.ts` (`ContentBlock`):
a record with a string tag and optional fields.  The structured tool input
(`input: any`) is modelled opaquely by its serialized text. -/
structure ContentBlock where
  type : String
  text : Option String := none
  thinking : Option String := none
  id : Option String := none
  name : Option String := none
  input : Option String := none
  tool_use_id : Option String := none
  content : Option String := none
  is_error : Option Bool := none
  deriving Repr, DecidableEq

/-- A tool call, from `src/frontend/src/types/chat.ts` (`ToolCall`).  The
structured input map is modelled opaquely by its serialized text. -/
structure ToolCall where
  tool : String
  input : String := ""
  result : Option String := none
  deriving Repr, DecidableEq

/-- The runtime content of a `Message`: the TypeScript type is
`string | ContentBlock[]`. -/
inductive MessageContent where
  | str (s : String)
  | blocks (bs : List ContentBlock)
  deriving Repr, DecidableEq

/-- A chat message, from `src/frontend/src/types/chat.ts` (`Message`). -/
structure Message where
  id : String
  content : MessageContent
  role : String
  timestamp : Nat
  tool_calls : Option (List ToolCall) := none
  files_created : Option (List String) := none
  thinking : Option String := none
  isStreaming : Option Bool := none
  isThinking : Option Bool := none
  content_blocks : Option (List ContentBlock) := none
  deriving Repr, DecidableEq

/-- The hook state, from `src/frontend/src/types/chat.ts` (`ChatState`). -/
structure ChatState where
  messages : List Message
  isLoading : Bool
  error : Option String
  deriving Repr, DecidableEq

/-- A stream chunk, from `src/frontend/src/services/api.ts` (`StreamChunk`).
The `type` field is declared as a union of five string literals, but that
union is erased at runtime and `JSON.parse` performs no validation, so it
is modelled as an arbitrary `String`. -/
structure StreamChunk where
  type : String
  content : Option String := none
  is_final : Option Bool := none
  tool_calls : Option (List ToolCall) := none
  files_created : Option (List String) := none
  content_blocks : Option (List ContentBlock) := none
  error : Option String := none
  deriving Repr, DecidableEq

/-- One entry of the `conversation_history` request payload built in
`useChat.ts`: `{ role, content }` with `content : string | ContentBlock[]`. -/
structure HistEntry where
  role : String
  content : MessageContent
  deriving Repr, DecidableEq

/-- JavaScript string coercion of a possibly-undefined string value:
`undefined + ' '` evaluates to the text `undefined` followed by a space. -/
def jsCoerceStr (o : Option String) : String := o.getD "undefined"

/-- Both-ends whitespace trimming on a character list (model of
JavaScript `String.prototype.trim`). -/
def trimChars (l : List Char) : List Char :=
  ((l.dropWhile Char.isWhitespace).reverse.dropWhile Char.isWhitespace).reverse

/-- Model of JavaScript `String.prototype.trim`: drop whitespace from both
ends of the string. -/
def jsTrim (s : String) : String := ⟨trimChars s.data⟩

/-- Escape the two JSON-significant characters (model of the string
escaping performed by `JSON.stringify`). -/
def escapeJsonString (s : String) : String :=
  ⟨s.data.foldr (fun c acc => if c = '\\' ∨ c = '\"' then '\\' :: c :: acc else c :: acc) []⟩

/-- One serialized field of a block, rendered as a JSON pair. -/
def jsonField (k : String) (v : String) : String :=
  "\"" ++ k ++ "\":\"" ++ escapeJsonString v ++ "\""

/-- Model of `JSON.stringify` on a single `ContentBlock`: present fields
are rendered in declaration order, absent (`undefined`) fields are
omitted, exactly as `JSON.stringify` does. -/
def jsonStringifyBlock (b : ContentBlock) : String :=
  let fields : List String :=
    [jsonField "type" b.type]
    ++ (match b.text with | some v => [jsonField "text" v] | none => [])
    ++ (match b.thinking with | some v => [jsonField "thinking" v] | none => [])
    ++ (match b.id with | some v => [jsonField "id" v] | none => [])
    ++ (match b.name with | some v => [jsonField "name" v] | none => [])
    ++ (match b.input with | some v => [jsonField "input" v] | none => [])
    ++ (match b.tool_use_id with | some v => [jsonField "tool_use_id" v] | none => [])
    ++ (match b.content with | some v => [jsonField "content" v] | none => [])
    ++ (match b.is_error with
        | some v => ["\"is_error\":" ++ (if v then "true" else "false")]
        | none => [])
  "\x7b" ++ String.intercalate "," fields ++ "\x7d"

/-- Model of `JSON.stringify` applied to a `ContentBlock` array, as used by
the fallback branch of the history mapping in `useChat.ts` line 74. -/
def jsonStringifyBlocks (bs : List ContentBlock) : String :=
  "[" ++ String.intercalate "," (bs.map jsonStringifyBlock) ++ "]"

/-- The mapping step of the History Reconciler (`useChat.ts` lines 70-75):
`content: msg.content_blocks || (typeof msg.content === 'string' ?
msg.content : JSON.stringify(msg.content))`.  Note that in JavaScript an
empty array is truthy, so a present-but-empty `content_blocks` is used. -/
def toHistoryEntry (m : Message) : HistEntry :=
  { role := m.role
    content :=
      match m.content_blocks with
      | some bs => .blocks bs
      | none =>
        match m.content with
        | .str s => .str s
        | .blocks bs => .str (jsonStringifyBlocks bs) }

/-- The non-empty-content filter of the History Reconciler (`useChat.ts`
lines 76-88): strings must be non-blank after trimming; block lists must be
non-empty and contain a block with non-blank `text` (a block whose `text`
is absent or the empty string is falsy in the JavaScript conjunction
`block.text && block.text.trim().length > 0`). -/
def hasNonEmptyContent (e : HistEntry) : Bool :=
  match e.content with
  | .str s => (jsTrim s).length > 0
  | .blocks bs =>
    decide (bs.length > 0) &&
      bs.any (fun b =>
        match b.text with
        | some t => (jsTrim t).length > 0
        | none => false)

/-- The History Reconciler (`useChat.ts` lines 62-88), applied to the
message list with the current user message already appended:
filter out the welcome message, filter out streaming messages, drop the
last element (the current user message), map to `{role, content}` entries,
and keep only entries with non-empty content. -/
def buildConversationHistory (newMessages : List Message) : List HistEntry :=
  ((((newMessages.filter (fun m => !(m.id == "welcome"))).filter
      (fun m => !(m.isStreaming.getD false))).dropLast).map toHistoryEntry).filter
    hasNonEmptyContent

/-- The same pipeline without the `slice(0, -1)` step, describing what the
payload looks like in terms of the messages that existed before the current
user message was appended. -/
def priorHistory (ms : List Message) : List HistEntry :=
  (((ms.filter (fun m => !(m.id == "welcome"))).filter
      (fun m => !(m.isStreaming.getD false))).map toHistoryEntry).filter
    hasNonEmptyContent

/-- The user message constructed at the top of `sendMessage`
(`useChat.ts` lines 52-57). -/
def mkUserMessage (uid : String) (content : String) (ts : Nat) : Message :=
  { id := uid, content := .str content, role := "user", timestamp := ts }

/-- The `conversation_history` payload actually sent by `sendMessage`:
the reconciler applied to the previous messages with the new user message
appended. -/
def requestHistory (st : ChatState) (content uid : String) (ts : Nat) : List HistEntry :=
  buildConversationHistory (st.messages ++ [mkUserMessage uid content ts])

/-- The initial empty assistant message appended before the stream is
consumed (`useChat.ts` lines 110-121). -/
def initialAssistantMessage (aid : String) (ts : Nat) : Message :=
  { id := aid, content := .str "", thinking := some "", role := "assistant",
    timestamp := ts, isStreaming := some true, isThinking := some false }

/-- The local accumulator variables of the streaming branch of
`sendMessage` (`useChat.ts` lines 103-107). -/
structure StreamAcc where
  streamedContent : String := ""
  thinkingContent : String := ""
  toolCalls : List ToolCall := []
  filesCreated : List String := []
  contentBlocks : List ContentBlock := []
  deriving Repr, DecidableEq

/-- The `setState` update applied on a `thinking` chunk
(`useChat.ts` lines 132-139): the message with the assistant id gets the
trimmed thinking buffer and `isThinking: true`. -/
def applyThinkingUpdate (aid : String) (buf : String) (st : ChatState) : ChatState :=
  { st with
    messages := st.messages.map fun m =>
      if m.id = aid then { m with thinking := some (jsTrim buf), isThinking := some true }
      else m }

/-- The `setState` update applied on a `content` chunk
(`useChat.ts` lines 144-151): the message with the assistant id gets the
trimmed content buffer and `isThinking: false`. -/
def applyContentUpdate (aid : String) (buf : String) (st : ChatState) : ChatState :=
  { st with
    messages := st.messages.map fun m =>
      if m.id = aid then { m with content := .str (jsTrim buf), isThinking := some false }
      else m }

/-- The `setState` update applied on an `end` chunk
(`useChat.ts` lines 160-175): finalize the assistant message with the
accumulated tool snapshot and clear the loading flag. -/
def applyEndUpdate (aid : String) (acc : StreamAcc) (st : ChatState) : ChatState :=
  { st with
    messages := st.messages.map fun m =>
      if m.id = aid then
        { m with isStreaming := some false, isThinking := some false,
                 tool_calls := some acc.toolCalls,
                 files_created := some acc.filesCreated,
                 content_blocks := some acc.contentBlocks }
      else m
    isLoading := false }

/-- The `catch` handler of `sendMessage` (`useChat.ts` lines 202-208):
clear the loading flag and record the error string, touching nothing else. -/
def catchHandler (st : ChatState) (e : String) : ChatState :=
  { st with isLoading := false, error := some e }

/-- Result of processing one chunk inside the `for await` loop:
continue iterating, break out after `end`, or throw (an `error` chunk). -/
inductive RunStep where
  | cont (acc : StreamAcc) (st : ChatState)
  | ended (st : ChatState)
  | threw (e : String) (st : ChatState)
  deriving Repr

/-- Outcome of consuming the whole chunk list: the loop ran off the end of
the stream without a terminal chunk, finished via `end`, or failed via a
thrown error (already routed through the catch handler). -/
inductive RunOutcome where
  | running (acc : StreamAcc) (st : ChatState)
  | done (st : ChatState)
  | failed (st : ChatState)
  deriving Repr

/-- The body of the `for await` loop in `sendMessage`
(`useChat.ts` lines 127-177), one chunk at a time.  The five known chunk
types are dispatched by an if/else-if chain with no else branch, so a
chunk of any other type falls through with no effect at all. -/
def processChunk (aid : String) (acc : StreamAcc) (st : ChatState) (c : StreamChunk) :
    RunStep :=
  if c.type = "thinking" then
    let buf := acc.thinkingContent ++ jsCoerceStr c.content ++ " "
    .cont { acc with thinkingContent := buf } (applyThinkingUpdate aid buf st)
  else if c.type = "content" then
    let buf := acc.streamedContent ++ jsCoerceStr c.content ++ " "
    .cont { acc with streamedContent := buf } (applyContentUpdate aid buf st)
  else if c.type = "tools" then
    .cont { acc with toolCalls := c.tool_calls.getD [],
                     filesCreated := c.files_created.getD [],
                     contentBlocks := c.content_blocks.getD [] } st
  else if c.type = "error" then
    .threw (c.error.getD "") st
  else if c.type = "end" then
    .ended (applyEndUpdate aid acc st)
  else
    .cont acc st

/-- The `for await` loop over the stream of chunks.  An empty remainder
means the stream closed without a terminal chunk: the loop simply ends,
running no further state update.  A thrown error chunk is routed to the
`catch` handler of `sendMessage`. -/
def runChunks (aid : String) (acc : StreamAcc) (st : ChatState) :
    List StreamChunk → RunOutcome
  | [] => .running acc st
  | c :: cs =>
    match processChunk aid acc st c with
    | .cont acc2 st2 => runChunks aid acc2 st2 cs
    | .ended st2 => .done st2
    | .threw e st2 => .failed (catchHandler st2 e)

/-- The chat state an outcome leaves behind. -/
def finalState : RunOutcome → ChatState
  | .running _ st => st
  | .done st => st
  | .failed st => st

/-- The streaming branch of `sendMessage` (`useChat.ts` lines 51-178,
202-208) as a state transformer: append the user message (setting the
loading flag and clearing the error), append the initial assistant message,
then consume the delivered chunks. -/
def sendMessageStreaming (st : ChatState) (content uid aid : String) (ts : Nat)
    (chunks : List StreamChunk) : ChatState :=
  let st1 : ChatState :=
    { st with messages := st.messages ++ [mkUserMessage uid content ts],
              isLoading := true, error := none }
  let st2 : ChatState :=
    { st1 with messages := st1.messages ++ [initialAssistantMessage aid ts] }
  finalState (runChunks aid {} st2 chunks)

/-- Look a message up by id in the state (first match, as rendering and the
`map` updates key on the id). -/
def findMessage (st : ChatState) (i : String) : Option Message :=
  st.messages.find? (fun m => m.id == i)

/-- The tool snapshot carried by one `tools` chunk, with the `|| []`
defaults of `useChat.ts` lines 153-155. -/
def toolsSnapshotOf (c : StreamChunk) : List ToolCall × List String × List ContentBlock :=
  (c.tool_calls.getD [], c.files_created.getD [], c.content_blocks.getD [])

/-- The snapshot left by the last `tools` chunk of a list (or the empty
snapshot if the list has none): each `tools` chunk overwrites the previous
snapshot wholesale. -/
def lastToolsPayload (cs : List StreamChunk) : List ToolCall × List String × List ContentBlock :=
  cs.foldl (fun cur c => if c.type = "tools" then toolsSnapshotOf c else cur) ([], [], [])

/-- The delta strings joined with single separating spaces — the
specification-side description of the accumulated buffer text in C8. -/
def joinWithSpaces : List String → String
  | [] => ""
  | d :: ds => ds.foldl (fun a b => a ++ " " ++ b) d

/-- A stream of pure thinking deltas. -/
def thinkingChunks (ds : List String) : List StreamChunk :=
  ds.map fun t => { type := "thinking", content := some t }

/-- A stream of pure content deltas. -/
def contentChunks (ds : List String) : List StreamChunk :=
  ds.map fun t => { type := "content", content := some t }

/-- The SSE line loop of `sendMessageStream` (`api.ts` lines 62-71):
for each line that starts with the `data: ` prefix, try to decode the rest
of the line; on success the chunk is yielded, on failure the line is
skipped (the catch only issues `console.warn`).  `JSON.parse` is a
JavaScript library primitive, modelled as an abstract decoder passed in as
a parameter. -/
def processSSELines (decode : String → Option StreamChunk) (lines : List String) :
    List StreamChunk :=
  lines.filterMap fun l => if l.startsWith "data: " then decode (l.drop 6) else none

/-- The welcome message of `INITIAL_STATE` (`useChat.ts` lines 5-46). -/
def welcomeMessage : Message :=
  { id := "welcome"
    content := .str ("# 🌍 Welcome to the Worldbuilding Toolkit!\n\nYou have these tools available:\n\n## **WORLD TOOLS:**\n• **instantiate_world** - Create a new world project\n• **list_world_files** - See what\x27s in your world\n\n## **TAXONOMY TOOLS:**\n• **generate_taxonomy_guidelines** - Get custom guidelines for a taxonomy type\n• **create_taxonomy_folders** - Create organized categories for your world\n\n## **ENTRY TOOLS:**\n• **create_world_entry** - Add detailed entries to your world\n• **identify_stub_candidates** - Find entities that need their own entries\n• **create_stub_entries** - Automatically create placeholder entries\n\n## **IMAGE TOOLS:**\n• **generate_image_from_markdown_file** - Create visuals for your content\n\n## **SITE TOOLS:**\n• **build_static_site** - Generate a navigable website from your world\n\n---\n\n💡 **Try saying things like:**\n- \"Create a fantasy world about floating islands\"\n- \"Use instantiate_world to start a sci-fi project\"\n- \"Generate an image for my character entry\"\n\nWhat would you like to build?")
    role := "assistant"
    timestamp := 0 }

/-- The initial hook state (`useChat.ts` lines 5-46): the welcome message
is displayed, no loading, no error.  The `Date.now()` timestamp is
modelled as 0. -/
def INITIAL_STATE : ChatState :=
  { messages := [welcomeMessage], isLoading := false, error := none }

/-! Supporting lemmas. -/

/-- String append acts on the underlying character lists. -/
theorem string_data_append (s t : String) : (s ++ t).data = s.data ++ t.data := rfl

/-- String append is associative. -/
theorem string_append_assoc (a b c : String) : a ++ b ++ c = a ++ (b ++ c) := by
  apply String.ext
  show (a.data ++ b.data) ++ c.data = a.data ++ (b.data ++ c.data)
  exact List.append_assoc a.data b.data c.data

/-- Trimming ignores a trailing space on the character list. -/
theorem trimChars_append_space (l : List Char) : trimChars (l ++ [' ']) = trimChars l := by
  unfold trimChars
  rw [List.dropWhile_append]
  by_cases h : (l.dropWhile Char.isWhitespace).isEmpty = true
  · rw [if_pos h]
    rw [List.isEmpty_iff] at h
    rw [h]
    simp [List.dropWhile]
  · rw [if_neg h]
    rw [List.reverse_append]
    simp [List.dropWhile]

/-- The JavaScript trim of a buffer with a trailing space equals the trim of
the buffer without it. -/
theorem jsTrim_append_space (s : String) : jsTrim (s ++ " ") = jsTrim s := by
  unfold jsTrim
  have h : (s ++ " ").data = s.data ++ [' '] := rfl
  rw [h, trimChars_append_space]

/-- Updating by id leaves a list of messages with other ids untouched. -/
theorem map_id_of_fresh (aid : String) (g : Message → Message) :
    ∀ (pre : List Message), (∀ m ∈ pre, m.id ≠ aid) →
      pre.map (fun m => if m.id = aid then g m else m) = pre := by
  intro pre
  induction pre with
  | nil => intro _; rfl
  | cons x xs ih =>
    intro h
    have hx : x.id ≠ aid := h x (List.mem_cons_self x xs)
    simp only [List.map_cons, if_neg hx]
    rw [ih (fun m hm => h m (List.mem_cons_of_mem x hm))]

/-- Updating by id on a list that ends in the identified message rewrites
exactly that last message. -/
theorem map_update_append (pre : List Message) (a : Message) (aid : String)
    (g : Message → Message)
    (hpre : ∀ m ∈ pre, m.id ≠ aid) (ha : a.id = aid) :
    (pre ++ [a]).map (fun m => if m.id = aid then g m else m) = pre ++ [g a] := by
  rw [List.map_append, map_id_of_fresh aid g pre hpre]
  simp [ha]

/-- Looking up the assistant id in a state whose messages end in the
assistant message and contain no other message with that id finds it. -/
theorem findMessage_append (st : ChatState) (pre : List Message) (a : Message) (aid : String)
    (hmsg : st.messages = pre ++ [a])
    (hpre : ∀ m ∈ pre, m.id ≠ aid) (ha : a.id = aid) :
    findMessage st aid = some a := by
  unfold findMessage
  rw [hmsg, List.find?_append]
  have h1 : pre.find? (fun m => m.id == aid) = none := by
    rw [List.find?_eq_none]
    intro m hm
    simp [hpre m hm]
  rw [h1]
  simp [List.find?, ha]

/-- The chunk loop splits over list append: if the first part leaves the
loop running, the second part continues from there; a terminal outcome in
the first part short-circuits. -/
theorem runChunks_append (aid : String) :
    ∀ (xs ys : List StreamChunk) (acc : StreamAcc) (st : ChatState),
      runChunks aid acc st (xs ++ ys) =
        match runChunks aid acc st xs with
        | .running acc2 st2 => runChunks aid acc2 st2 ys
        | o => o := by
  intro xs
  induction xs with
  | nil => intro ys acc st; rfl
  | cons c cs ih =>
    intro ys acc st
    simp only [List.cons_append, runChunks]
    cases processChunk aid acc st c with
    | cont acc2 st2 => exact ih ys acc2 st2
    | ended st2 => rfl
    | threw e st2 => rfl

/-- A fold that never sees a `tools` chunk keeps its seed. -/
theorem foldl_tools_const (f : List StreamChunk) :
    ∀ (z : List ToolCall × List String × List ContentBlock),
      (∀ c ∈ f, c.type ≠ "tools") →
      f.foldl (fun cur c => if c.type = "tools" then toolsSnapshotOf c else cur) z = z := by
  induction f with
  | nil => intro z _; rfl
  | cons c cs ih =>
    intro z h
    have hc : c.type ≠ "tools" := h c (List.mem_cons_self c cs)
    simp only [List.foldl_cons, if_neg hc]
    exact ih z (fun x hx => h x (List.mem_cons_of_mem c hx))

/-- Invariant of the chunk loop over non-terminal chunks: the assistant
message stays last in the list, keeps its id, stays streaming, the loading
flag and the error are untouched, and the tool accumulator carries the
snapshot of the last `tools` chunk seen. -/
theorem run_nonterminal (aid : String) :
    ∀ (cs : List StreamChunk) (acc : StreamAcc) (st : ChatState)
      (pre : List Message) (a : Message),
      (∀ c ∈ cs, c.type ≠ "end" ∧ c.type ≠ "error") →
      st.messages = pre ++ [a] → (∀ m ∈ pre, m.id ≠ aid) → a.id = aid →
      a.isStreaming = some true →
      ∃ acc2 st2 a2,
        runChunks aid acc st cs = .running acc2 st2 ∧
        st2.messages = pre ++ [a2] ∧ a2.id = aid ∧ a2.isStreaming = some true ∧
        st2.isLoading = st.isLoading ∧ st2.error = st.error ∧
        (acc2.toolCalls, acc2.filesCreated, acc2.contentBlocks) =
          cs.foldl (fun cur c => if c.type = "tools" then toolsSnapshotOf c else cur)
            (acc.toolCalls, acc.filesCreated, acc.contentBlocks) := by
  intro cs
  induction cs with
  | nil =>
    intro acc st pre a _ hmsg hpre ha hstr
    exact ⟨acc, st, a, rfl, hmsg, ha, hstr, rfl, rfl, rfl⟩
  | cons c cs ih =>
    intro acc st pre a hnt hmsg hpre ha hstr
    have hce := hnt c (List.mem_cons_self c cs)
    have hcs : ∀ x ∈ cs, x.type ≠ "end" ∧ x.type ≠ "error" :=
      fun x hx => hnt x (List.mem_cons_of_mem c hx)
    by_cases h1 : c.type = "thinking"
    · have hnotools : c.type ≠ "tools" := by rw [h1]; decide
      obtain ⟨acc2, st2, a2, hr, hm2, hid2, hstr2, hld2, herr2, htl2⟩ :=
        ih { acc with thinkingContent := acc.thinkingContent ++ jsCoerceStr c.content ++ " " }
          (applyThinkingUpdate aid (acc.thinkingContent ++ jsCoerceStr c.content ++ " ") st)
          pre ({ a with thinking := some (jsTrim (acc.thinkingContent ++ jsCoerceStr c.content ++ " ")),
                        isThinking := some true })
          hcs
          (by
            show (st.messages.map _) = _
            rw [hmsg]
            exact map_update_append pre a aid _ hpre ha)
          hpre ha hstr
      refine ⟨acc2, st2, a2, ?_, hm2, hid2, hstr2, ?_, ?_, ?_⟩
      · rw [show runChunks aid acc st (c :: cs) =
            (match processChunk aid acc st c with
             | .cont acc3 st3 => runChunks aid acc3 st3 cs
             | .ended st3 => .done st3
             | .threw e st3 => .failed (catchHandler st3 e)) from rfl]
        simp only [processChunk, if_pos h1]
        exact hr
      · rw [hld2]; rfl
      · rw [herr2]; rfl
      · rw [htl2]
        simp only [List.foldl_cons, if_neg hnotools]
    · by_cases h2 : c.type = "content"
      · have hnotools : c.type ≠ "tools" := by rw [h2]; decide
        obtain ⟨acc2, st2, a2, hr, hm2, hid2, hstr2, hld2, herr2, htl2⟩ :=
          ih { acc with streamedContent := acc.streamedContent ++ jsCoerceStr c.content ++ " " }
            (applyContentUpdate aid (acc.streamedContent ++ jsCoerceStr c.content ++ " ") st)
            pre ({ a with content := .str (jsTrim (acc.streamedContent ++ jsCoerceStr c.content ++ " ")),
                          isThinking := some false })
            hcs
            (by
              show (st.messages.map _) = _
              rw [hmsg]
              exact map_update_append pre a aid _ hpre ha)
            hpre ha hstr
        refine ⟨acc2, st2, a2, ?_, hm2, hid2, hstr2, ?_, ?_, ?_⟩
        · rw [show runChunks aid acc st (c :: cs) =
              (match processChunk aid acc st c with
               | .cont acc3 st3 => runChunks aid acc3 st3 cs
               | .ended st3 => .done st3
               | .threw e st3 => .failed (catchHandler st3 e)) from rfl]
          simp only [processChunk, if_neg h1, if_pos h2]
          exact hr
        · rw [hld2]; rfl
        · rw [herr2]; rfl
        · rw [htl2]
          simp only [List.foldl_cons, if_neg hnotools]
      · by_cases h3 : c.type = "tools"
        · obtain ⟨acc2, st2, a2, hr, hm2, hid2, hstr2, hld2, herr2, htl2⟩ :=
            ih { acc with toolCalls := c.tool_calls.getD [],
                          filesCreated := c.files_created.getD [],
                          contentBlocks := c.content_blocks.getD [] }
              st pre a hcs hmsg hpre ha hstr
          refine ⟨acc2, st2, a2, ?_, hm2, hid2, hstr2, hld2, herr2, ?_⟩
          · rw [show runChunks aid acc st (c :: cs) =
                (match processChunk aid acc st c with
                 | .cont acc3 st3 => runChunks aid acc3 st3 cs
                 | .ended st3 => .done st3
                 | .threw e st3 => .failed (catchHandler st3 e)) from rfl]
            simp only [processChunk, if_neg h1, if_neg h2, if_pos h3]
            exact hr
          · rw [htl2]
            simp only [List.foldl_cons, if_pos h3]
            rfl
        · obtain ⟨acc2, st2, a2, hr, hm2, hid2, hstr2, hld2, herr2, htl2⟩ :=
            ih acc st pre a hcs hmsg hpre ha hstr
          refine ⟨acc2, st2, a2, ?_, hm2, hid2, hstr2, hld2, herr2, ?_⟩
          · rw [show runChunks aid acc st (c :: cs) =
                (match processChunk aid acc st c with
                 | .cont acc3 st3 => runChunks aid acc3 st3 cs
                 | .ended st3 => .done st3
                 | .threw e st3 => .failed (catchHandler st3 e)) from rfl]
            simp only [processChunk, if_neg h1, if_neg h2, if_neg h3,
              if_neg hce.2, if_neg hce.1]
            exact hr
          · rw [htl2]
            simp only [List.foldl_cons, if_neg h3]

/-- Folding the space-separated join over a seed with a prefix factors the
prefix out. -/
theorem foldl_join_pre :
    ∀ (l : List String) (p x : String),
      l.foldl (fun a b => a ++ " " ++ b) (p ++ x) =
        p ++ l.foldl (fun a b => a ++ " " ++ b) x := by
  intro l
  induction l with
  | nil => intro p x; rfl
  | cons y ys ih =>
    intro p x
    simp only [List.foldl_cons]
    rw [string_append_assoc p x " ", string_append_assoc p (x ++ " ") y]
    exact ih p (x ++ " " ++ y)

/-- The space-separated join of a non-empty tail unfolds one step. -/
theorem joinWithSpaces_cons (d : String) (ds : List String) (h : ds ≠ []) :
    joinWithSpaces (d :: ds) = d ++ " " ++ joinWithSpaces ds := by
  cases ds with
  | nil => exact absurd rfl h
  | cons r rest =>
    show (r :: rest).foldl (fun a b => a ++ " " ++ b) d = d ++ " " ++ joinWithSpaces (r :: rest)
    simp only [List.foldl_cons]
    exact foldl_join_pre rest (d ++ " ") r

/-- Running a non-empty list of pure thinking deltas leaves the loop
running, appends each delta plus a space to the thinking buffer (touching
no other accumulator field), and displays the trimmed space-joined deltas
on every message carrying the assistant id. -/
theorem run_thinking_from (aid : String) :
    ∀ (ds : List String) (acc : StreamAcc) (st : ChatState), ds ≠ [] →
      ∃ st2,
        runChunks aid acc st (thinkingChunks ds) =
          .running { acc with thinkingContent :=
              acc.thinkingContent ++ joinWithSpaces ds ++ " " } st2 ∧
        ∀ m ∈ st2.messages, m.id = aid →
          m.thinking = some (jsTrim (acc.thinkingContent ++ joinWithSpaces ds ++ " ")) ∧
          m.isThinking = some true := by
  intro ds
  induction ds with
  | nil => intro acc st h; exact absurd rfl h
  | cons d rest ih =>
    intro acc st _
    by_cases hrest : rest = []
    · subst hrest
      refine ⟨applyThinkingUpdate aid (acc.thinkingContent ++ d ++ " ") st, rfl, ?_⟩
      intro m hm hmid
      simp only [applyThinkingUpdate, List.mem_map] at hm
      obtain ⟨m0, _, hm0⟩ := hm
      by_cases h0 : m0.id = aid
      · rw [if_pos h0] at hm0
        rw [← hm0]
        exact ⟨rfl, rfl⟩
      · rw [if_neg h0] at hm0
        rw [← hm0] at hmid
        exact absurd hmid h0
    · obtain ⟨st2, hrun, hmsg⟩ :=
        ih { acc with thinkingContent := acc.thinkingContent ++ d ++ " " }
          (applyThinkingUpdate aid (acc.thinkingContent ++ d ++ " ") st) hrest
      have hbuf : acc.thinkingContent ++ d ++ " " ++ joinWithSpaces rest ++ " " =
          acc.thinkingContent ++ joinWithSpaces (d :: rest) ++ " " := by
        rw [joinWithSpaces_cons d rest hrest]
        simp only [string_append_assoc]
      refine ⟨st2, ?_, ?_⟩
      · rw [show runChunks aid acc st (thinkingChunks (d :: rest)) =
            runChunks aid { acc with thinkingContent := acc.thinkingContent ++ d ++ " " }
              (applyThinkingUpdate aid (acc.thinkingContent ++ d ++ " ") st)
              (thinkingChunks rest) from rfl]
        rw [hrun, ← hbuf]
      · rw [← hbuf]
        exact hmsg

/-- Running a non-empty list of pure content deltas leaves the loop
running, appends each delta plus a space to the content buffer (touching
no other accumulator field), and displays the trimmed space-joined deltas
as the content of every message carrying the assistant id. -/
theorem run_content_from (aid : String) :
    ∀ (ds : List String) (acc : StreamAcc) (st : ChatState), ds ≠ [] →
      ∃ st2,
        runChunks aid acc st (contentChunks ds) =
          .running { acc with streamedContent :=
              acc.streamedContent ++ joinWithSpaces ds ++ " " } st2 ∧
        ∀ m ∈ st2.messages, m.id = aid →
          m.content = .str (jsTrim (acc.streamedContent ++ joinWithSpaces ds ++ " ")) ∧
          m.isThinking = some false := by
  intro ds
  induction ds with
  | nil => intro acc st h; exact absurd rfl h
  | cons d rest ih =>
    intro acc st _
    by_cases hrest : rest = []
    · subst hrest
      refine ⟨applyContentUpdate aid (acc.streamedContent ++ d ++ " ") st, rfl, ?_⟩
      intro m hm hmid
      simp only [applyContentUpdate, List.mem_map] at hm
      obtain ⟨m0, _, hm0⟩ := hm
      by_cases h0 : m0.id = aid
      · rw [if_pos h0] at hm0
        rw [← hm0]
        exact ⟨rfl, rfl⟩
      · rw [if_neg h0] at hm0
        rw [← hm0] at hmid
        exact absurd hmid h0
    · obtain ⟨st2, hrun, hmsg⟩ :=
        ih { acc with streamedContent := acc.streamedContent ++ d ++ " " }
          (applyContentUpdate aid (acc.streamedContent ++ d ++ " ") st) hrest
      have hbuf : acc.streamedContent ++ d ++ " " ++ joinWithSpaces rest ++ " " =
          acc.streamedContent ++ joinWithSpaces (d :: rest) ++ " " := by
        rw [joinWithSpaces_cons d rest hrest]
        simp only [string_append_assoc]
      refine ⟨st2, ?_, ?_⟩
      · rw [show runChunks aid acc st (contentChunks (d :: rest)) =
            runChunks aid { acc with streamedContent := acc.streamedContent ++ d ++ " " }
              (applyContentUpdate aid (acc.streamedContent ++ d ++ " ") st)
              (contentChunks rest) from rfl]
        rw [hrun, ← hbuf]
      · rw [← hbuf]
        exact hmsg

/-! Claim theorems. -/

/-- C4: thinking and content deltas arriving after any already-processed
prefix of events — in particular after a `tools` event — extend the
existing buffers: the buffer after processing is the old buffer with the
delta text (and the appended space) concatenated onto it, and nothing else
in the accumulator is reset, truncated or replaced. -/
theorem C4_theorem (aid : String) (acc : StreamAcc) (st : ChatState)
    (cs : List StreamChunk) (acc2 : StreamAcc) (st2 : ChatState)
    (c1 c2 : StreamChunk) (t1 t2 : String)
    (hrun : runChunks aid acc st cs = .running acc2 st2)
    (h1 : c1.type = "thinking") (h2 : c1.content = some t1)
    (h3 : c2.type = "content") (h4 : c2.content = some t2) :
    (∃ st3, runChunks aid acc st (cs ++ [c1]) =
        .running { acc2 with thinkingContent := acc2.thinkingContent ++ t1 ++ " " } st3) ∧
    (∃ st3, runChunks aid acc st (cs ++ [c2]) =
        .running { acc2 with streamedContent := acc2.streamedContent ++ t2 ++ " " } st3) := by
  constructor
  · refine ⟨applyThinkingUpdate aid (acc2.thinkingContent ++ t1 ++ " ") st2, ?_⟩
    rw [runChunks_append aid cs [c1] acc st, hrun]
    show runChunks aid acc2 st2 [c1] = _
    have hstep : processChunk aid acc2 st2 c1 =
        .cont { acc2 with thinkingContent := acc2.thinkingContent ++ t1 ++ " " }
          (applyThinkingUpdate aid (acc2.thinkingContent ++ t1 ++ " ") st2) := by
      simp [processChunk, h1, h2, jsCoerceStr]
    simp [runChunks, hstep]
  · refine ⟨applyContentUpdate aid (acc2.streamedContent ++ t2 ++ " ") st2, ?_⟩
    rw [runChunks_append aid cs [c2] acc st, hrun]
    show runChunks aid acc2 st2 [c2] = _
    have hstep : processChunk aid acc2 st2 c2 =
        .cont { acc2 with streamedContent := acc2.streamedContent ++ t2 ++ " " }
          (applyContentUpdate aid (acc2.streamedContent ++ t2 ++ " ") st2) := by
      simp [processChunk, h3, h4, jsCoerceStr]
    simp [runChunks, hstep]

/-- C6: the history mapping uses the structured `content_blocks` form of a
message whenever one is present, uses the plain string content only when no
structured form exists, and sends a user message (which is built with
string content and no structured form) as its plain text. -/
theorem C6_theorem (m1 m2 : Message) (bs : List ContentBlock)
    (s uid content : String) (ts : Nat)
    (h1 : m1.content_blocks = some bs)
    (h2a : m2.content_blocks = none) (h2b : m2.content = .str s) :
    (toHistoryEntry m1).content = .blocks bs ∧
    (toHistoryEntry m2).content = .str s ∧
    toHistoryEntry (mkUserMessage uid content ts) =
      { role := "user", content := .str content } := by
  refine ⟨?_, ?_, rfl⟩
  · simp [toHistoryEntry, h1]
  · simp [toHistoryEntry, h2a, h2b]

/-- C7: a `thinking` delta appends its text (plus the accumulated space) to
the thinking buffer, leaves the content buffer untouched, and puts the
assistant message into the thinking phase (`isThinking` true, displaying
the trimmed thinking buffer); a `content` delta appends to the content
buffer, leaves the thinking buffer untouched, and puts the message into
the speaking phase (`isThinking` false, displaying the trimmed content
buffer).  Neither delta modifies the other displayed field on any message. -/
theorem C7_theorem (aid : String) (acc : StreamAcc) (st : ChatState)
    (c1 c2 : StreamChunk) (t1 t2 : String)
    (h1 : c1.type = "thinking") (h2 : c1.content = some t1)
    (h3 : c2.type = "content") (h4 : c2.content = some t2) :
    (∃ acc2 st2, processChunk aid acc st c1 = .cont acc2 st2 ∧
      acc2.thinkingContent = acc.thinkingContent ++ t1 ++ " " ∧
      acc2.streamedContent = acc.streamedContent ∧
      (∀ m ∈ st2.messages, m.id = aid →
        m.isThinking = some true ∧ m.thinking = some (jsTrim acc2.thinkingContent)) ∧
      st2.messages.map (fun m => m.content) = st.messages.map (fun m => m.content)) ∧
    (∃ acc2 st2, processChunk aid acc st c2 = .cont acc2 st2 ∧
      acc2.streamedContent = acc.streamedContent ++ t2 ++ " " ∧
      acc2.thinkingContent = acc.thinkingContent ∧
      (∀ m ∈ st2.messages, m.id = aid →
        m.isThinking = some false ∧ m.content = .str (jsTrim acc2.streamedContent)) ∧
      st2.messages.map (fun m => m.thinking) = st.messages.map (fun m => m.thinking)) := by
  constructor
  · refine ⟨{ acc with thinkingContent := acc.thinkingContent ++ t1 ++ " " },
      applyThinkingUpdate aid (acc.thinkingContent ++ t1 ++ " ") st, ?_, rfl, rfl, ?_, ?_⟩
    · simp [processChunk, h1, h2, jsCoerceStr]
    · intro m hm hmid
      simp only [applyThinkingUpdate, List.mem_map] at hm
      obtain ⟨m0, _, hm0⟩ := hm
      by_cases h0 : m0.id = aid
      · rw [if_pos h0] at hm0
        rw [← hm0]
        exact ⟨rfl, rfl⟩
      · rw [if_neg h0] at hm0
        rw [← hm0] at hmid
        exact absurd hmid h0
    · show (st.messages.map _).map _ = _
      rw [List.map_map]
      apply List.map_congr_left
      intro m _
      by_cases h0 : m.id = aid
      · simp [if_pos h0]
      · simp [if_neg h0]
  · refine ⟨{ acc with streamedContent := acc.streamedContent ++ t2 ++ " " },
      applyContentUpdate aid (acc.streamedContent ++ t2 ++ " ") st, ?_, rfl, rfl, ?_, ?_⟩
    · simp [processChunk, h3, h4, jsCoerceStr]
    · intro m hm hmid
      simp only [applyContentUpdate, List.mem_map] at hm
      obtain ⟨m0, _, hm0⟩ := hm
      by_cases h0 : m0.id = aid
      · rw [if_pos h0] at hm0
        rw [← hm0]
        exact ⟨rfl, rfl⟩
      · rw [if_neg h0] at hm0
        rw [← hm0] at hmid
        exact absurd hmid h0
    · show (st.messages.map _).map _ = _
      rw [List.map_map]
      apply List.map_congr_left
      intro m _
      by_cases h0 : m.id = aid
      · simp [if_pos h0]
      · simp [if_neg h0]

/-- C8: over a non-empty sequence of thinking (respectively content)
deltas processed from the empty accumulator, the buffer always receives a
literal space after each delta, so the accumulated buffer is the deltas
joined with single separating spaces plus one trailing space, and the text
displayed on the assistant message is the space-joined deltas with outer
whitespace trimmed — not the verbatim concatenation of the deltas. -/
theorem C8_theorem (aid : String) (st : ChatState) (ds es : List String)
    (hds : ds ≠ []) (hes : es ≠ []) :
    (∃ acc2 st2, runChunks aid {} st (thinkingChunks ds) = .running acc2 st2 ∧
      acc2.thinkingContent = joinWithSpaces ds ++ " " ∧
      acc2.streamedContent = "" ∧
      ∀ m ∈ st2.messages, m.id = aid →
        m.thinking = some (jsTrim (joinWithSpaces ds))) ∧
    (∃ acc2 st2, runChunks aid {} st (contentChunks es) = .running acc2 st2 ∧
      acc2.streamedContent = joinWithSpaces es ++ " " ∧
      acc2.thinkingContent = "" ∧
      ∀ m ∈ st2.messages, m.id = aid →
        m.content = .str (jsTrim (joinWithSpaces es))) := by
  constructor
  · obtain ⟨st2, hrun, hmsg⟩ := run_thinking_from aid ds {} st hds
    refine ⟨_, st2, hrun, rfl, rfl, ?_⟩
    intro m hm hmid
    have h := (hmsg m hm hmid).1
    rw [h]
    have h0 : ("" : String) ++ joinWithSpaces ds ++ " " = joinWithSpaces ds ++ " " := rfl
    rw [h0, jsTrim_append_space]
  · obtain ⟨st2, hrun, hmsg⟩ := run_content_from aid es {} st hes
    refine ⟨_, st2, hrun, rfl, rfl, ?_⟩
    intro m hm hmid
    have h := (hmsg m hm hmid).1
    rw [h]
    have h0 : ("" : String) ++ joinWithSpaces es ++ " " = joinWithSpaces es ++ " " := rfl
    rw [h0, jsTrim_append_space]

/-- C10: when the stream delivers an `error` event after any prefix of
events, the thrown error reaches the catch handler, which changes only
the loading flag (to false) and the error string; the messages array —
the user message and the partially streamed assistant message with
whatever had accumulated, still flagged streaming — is left exactly as it
was at the moment of failure. -/
theorem C10_theorem (aid : String) (acc accP : StreamAcc) (st stP : ChatState)
    (pre rest : List StreamChunk) (c : StreamChunk) (e : String)
    (hrun : runChunks aid acc st pre = .running accP stP)
    (hc : c.type = "error") (he : c.error = some e) :
    runChunks aid acc st (pre ++ c :: rest) =
      .failed { stP with isLoading := false, error := some e } ∧
    (finalState (runChunks aid acc st (pre ++ c :: rest))).messages = stP.messages ∧
    (finalState (runChunks aid acc st (pre ++ c :: rest))).isLoading = false ∧
    (finalState (runChunks aid acc st (pre ++ c :: rest))).error = some e := by
  have hstep : runChunks aid acc st (pre ++ c :: rest) =
      .failed { stP with isLoading := false, error := some e } := by
    rw [runChunks_append aid pre (c :: rest) acc st, hrun]
    show runChunks aid accP stP (c :: rest) = _
    have hpc : processChunk aid accP stP c = .threw e stP := by
      simp [processChunk, hc, he]
    simp [runChunks, hpc, catchHandler]
  exact ⟨hstep, by rw [hstep]; rfl, by rw [hstep]; rfl, by rw [hstep]; rfl⟩

/-- Filtering twice with the same predicate is the same as filtering once. -/
theorem filter_self_idem {α : Type} (p : α → Bool) (l : List α) :
    (l.filter p).filter p = l.filter p := by
  rw [List.filter_filter]
  simp only [Bool.and_self]

/-- C3: the conversation_history payload contains only entries with
non-empty resolved content (a non-blank string, or a block list with some
non-blank text); it depends only on the non-streaming messages; appending
an in-flight (streaming) message changes nothing
(`reconcile(history ++ [inFlight]) = reconcile(history)`); and appending
the current user message yields exactly the payload of the prior messages,
so no part of the current user message is included. -/
theorem C3_theorem (ms1 ms2 ms3 ms4 : List Message) (e : HistEntry) (m : Message)
    (uid content : String) (ts : Nat)
    (he : e ∈ buildConversationHistory ms1)
    (hm : m.isStreaming = some true)
    (hu : uid ≠ "welcome") :
    (match e.content with
     | .str s => (jsTrim s).length > 0
     | .blocks bs => bs ≠ [] ∧ ∃ b ∈ bs, ∃ t, b.text = some t ∧ (jsTrim t).length > 0) ∧
    buildConversationHistory (ms2 ++ [m]) = buildConversationHistory ms2 ∧
    buildConversationHistory (ms3 ++ [mkUserMessage uid content ts]) = priorHistory ms3 ∧
    buildConversationHistory ms4 =
      buildConversationHistory (ms4.filter (fun x => !(x.isStreaming.getD false))) := by
  refine ⟨?_, ?_, ?_, ?_⟩
  · have h : hasNonEmptyContent e = true :=
      (List.mem_filter.mp he).2
    cases hcon : e.content with
    | str s =>
      rw [hasNonEmptyContent, hcon] at h
      simp only [hcon]
      simpa using h
    | blocks bs =>
      rw [hasNonEmptyContent, hcon] at h
      rw [Bool.and_eq_true] at h
      obtain ⟨hlen, hany⟩ := h
      simp only [hcon]
      constructor
      · exact List.length_pos.mp (of_decide_eq_true hlen)
      · rw [List.any_eq_true] at hany
        obtain ⟨b, hb, hpb⟩ := hany
        cases hbt : b.text with
        | none => rw [hbt] at hpb; exact absurd hpb (by simp)
        | some t =>
          rw [hbt] at hpb
          exact ⟨b, hb, t, hbt, by simpa using hpb⟩
  · unfold buildConversationHistory
    have hfilter :
        ((ms2 ++ [m]).filter (fun x => !(x.id == "welcome"))).filter
          (fun x => !(x.isStreaming.getD false)) =
        (ms2.filter (fun x => !(x.id == "welcome"))).filter
          (fun x => !(x.isStreaming.getD false)) := by
      by_cases hw : m.id = "welcome"
      · simp [List.filter_append, List.filter_cons, hw, hm]
      · simp [List.filter_append, List.filter_cons, hw, hm]
    rw [hfilter]
  · unfold buildConversationHistory priorHistory
    have h1 : ((mkUserMessage uid content ts).id == "welcome") = false := by
      show (uid == "welcome") = false
      exact beq_eq_false_iff_ne.mpr hu
    have h2 : ((mkUserMessage uid content ts).isStreaming.getD false) = false := rfl
    rw [List.filter_append, List.filter_append]
    simp only [List.filter_cons, h1, Bool.not_false, if_true, List.filter_nil, h2,
      if_false]
    rw [List.dropLast_concat]
  · unfold buildConversationHistory
    have hfilter :
        ((ms4.filter (fun x => !(x.isStreaming.getD false))).filter
          (fun x => !(x.id == "welcome"))).filter
          (fun x => !(x.isStreaming.getD false)) =
        (ms4.filter (fun x => !(x.id == "welcome"))).filter
          (fun x => !(x.isStreaming.getD false)) := by
      rw [@List.filter_comm Message (fun x => !(x.id == "welcome"))
        (fun x => !(x.isStreaming.getD false)) ms4]
      exact filter_self_idem _ _
    rw [hfilter]

/-- C9: the welcome message (id `welcome`) contributes nothing to the
conversation_history payload: removing it from any position of the message
list leaves the payload unchanged (so the payload never contains it), even
though it is present and displayed in the initial conversation state. -/
theorem C9_theorem (pre post : List Message) (m : Message) (hm : m.id = "welcome")
    (l : Bool) (err : Option String) (content uid : String) (ts : Nat) :
    buildConversationHistory (pre ++ m :: post) = buildConversationHistory (pre ++ post) ∧
    requestHistory { messages := pre ++ m :: post, isLoading := l, error := err }
        content uid ts =
      requestHistory { messages := pre ++ post, isLoading := l, error := err }
        content uid ts ∧
    welcomeMessage ∈ INITIAL_STATE.messages ∧ welcomeMessage.id = "welcome" := by
  have key : ∀ (post2 : List Message),
      buildConversationHistory (pre ++ m :: post2) =
        buildConversationHistory (pre ++ post2) := by
    intro post2
    unfold buildConversationHistory
    have h1 : (pre ++ m :: post2).filter (fun x => !(x.id == "welcome")) =
        (pre ++ post2).filter (fun x => !(x.id == "welcome")) := by
      rw [List.filter_append, List.filter_append, List.filter_cons]
      simp [hm]
    rw [h1]
  refine ⟨key post, ?_, List.mem_cons_self _ _, rfl⟩
  show buildConversationHistory ((pre ++ m :: post) ++ [mkUserMessage uid content ts]) =
    buildConversationHistory ((pre ++ post) ++ [mkUserMessage uid content ts])
  rw [List.append_assoc, List.append_assoc, List.cons_append]
  exact key (post ++ [mkUserMessage uid content ts])

/-- C1 (amended): for every valid event sequence ending in `end`, the
final assistant message is terminal (`isStreaming` and `isThinking` false,
loading flag cleared) and its tool_calls, files_created and content_blocks
equal exactly the payload of the last `tools` event seen (each `tools`
event fully replaces the previous snapshot); if no `tools` event occurred
they are the empty lists — the running thinking/content buffers are not
copied into content_blocks but remain as the message's thinking and
content text fields. -/
theorem C1_theorem (st : ChatState) (content uid aid : String) (ts : Nat)
    (body : List StreamChunk)
    (hbody : ∀ c ∈ body, c.type ≠ "end" ∧ c.type ≠ "error")
    (hfresh : ∀ m ∈ st.messages, m.id ≠ aid) (huid : uid ≠ aid) :
    (∃ a, findMessage (sendMessageStreaming st content uid aid ts
          (body ++ [{ type := "end" }])) aid = some a ∧
        a.isStreaming = some false ∧ a.isThinking = some false ∧
        a.tool_calls = some (lastToolsPayload body).1 ∧
        a.files_created = some (lastToolsPayload body).2.1 ∧
        a.content_blocks = some (lastToolsPayload body).2.2) ∧
    (sendMessageStreaming st content uid aid ts
        (body ++ [{ type := "end" }])).isLoading = false ∧
    (∀ (cs : List StreamChunk) (c : StreamChunk), c.type = "tools" →
      lastToolsPayload (cs ++ [c]) = toolsSnapshotOf c) ∧
    ((∀ c ∈ body, c.type ≠ "tools") → lastToolsPayload body = ([], [], [])) := by
  have hpre : ∀ m ∈ st.messages ++ [mkUserMessage uid content ts], m.id ≠ aid := by
    intro m hm
    rcases List.mem_append.mp hm with h | h
    · exact hfresh m h
    · rw [List.mem_singleton] at h
      rw [h]
      exact huid
  obtain ⟨acc2, st2, a2, hr, hm2, hid2, hstr2, hld2, herr2, htl2⟩ :=
    run_nonterminal aid body {}
      { messages := (st.messages ++ [mkUserMessage uid content ts]) ++
          [initialAssistantMessage aid ts],
        isLoading := true, error := none }
      (st.messages ++ [mkUserMessage uid content ts])
      (initialAssistantMessage aid ts)
      hbody rfl hpre rfl rfl
  have hmain : sendMessageStreaming st content uid aid ts (body ++ [{ type := "end" }]) =
      applyEndUpdate aid acc2 st2 := by
    show finalState (runChunks aid {}
        { messages := (st.messages ++ [mkUserMessage uid content ts]) ++
            [initialAssistantMessage aid ts],
          isLoading := true, error := none }
        (body ++ [{ type := "end" }])) = _
    rw [runChunks_append aid body [{ type := "end" }] {} _, hr]
    show finalState (runChunks aid acc2 st2 [{ type := "end" }]) = _
    rfl
  have hmsgs : (applyEndUpdate aid acc2 st2).messages =
      (st.messages ++ [mkUserMessage uid content ts]) ++
        [{ a2 with isStreaming := some false, isThinking := some false,
                   tool_calls := some acc2.toolCalls,
                   files_created := some acc2.filesCreated,
                   content_blocks := some acc2.contentBlocks }] := by
    show st2.messages.map _ = _
    rw [hm2]
    exact map_update_append _ a2 aid _ hpre hid2
  have hfind : findMessage (applyEndUpdate aid acc2 st2) aid =
      some { a2 with isStreaming := some false, isThinking := some false,
                     tool_calls := some acc2.toolCalls,
                     files_created := some acc2.filesCreated,
                     content_blocks := some acc2.contentBlocks } :=
    findMessage_append _ _ _ _ hmsgs hpre hid2
  have h1 : acc2.toolCalls = (lastToolsPayload body).1 := congrArg Prod.fst htl2
  have h2 : acc2.filesCreated = (lastToolsPayload body).2.1 :=
    congrArg (fun x => x.2.1) htl2
  have h3 : acc2.contentBlocks = (lastToolsPayload body).2.2 :=
    congrArg (fun x => x.2.2) htl2
  refine ⟨⟨_, by rw [hmain]; exact hfind, rfl, rfl, ?_, ?_, ?_⟩, ?_, ?_, ?_⟩
  · show some acc2.toolCalls = _
    rw [h1]
  · show some acc2.filesCreated = _
    rw [h2]
  · show some acc2.contentBlocks = _
    rw [h3]
  · rw [hmain]
    rfl
  · intro cs c hc
    unfold lastToolsPayload
    rw [List.foldl_append]
    simp [hc]
  · intro hno
    exact foldl_tools_const body ([], [], []) hno

/-- C1 counterexample: on the stream `content "hi"` then `end` (no `tools`
event), the finalized assistant message has `content_blocks = some []`
while the running content buffer, "hi", survives only in the message's
`content` field — the content_blocks do not equal the running buffers as
the claim states. -/
theorem C1_counterexample :
    findMessage
        (sendMessageStreaming INITIAL_STATE "make a world" "1" "2" 0
          [{ type := "content", content := some "hi" }, { type := "end" }]) "2" =
      some { id := "2", content := .str "hi", role := "assistant", timestamp := 0,
             tool_calls := some [], files_created := some [], thinking := some "",
             isStreaming := some false, isThinking := some false,
             content_blocks := some [] } ∧
    ("hi" : String) ≠ "" := by
  exact ⟨rfl, by decide⟩

/-- C2 (amended): when the stream terminates without `end`, the assistant
message is left in the streaming (non-terminal) phase, not a failed one.
If the stream simply closes with no terminal event, nothing runs at all:
the loading flag stays true, no error is recorded, and the message stays
`isStreaming`.  If an `error` event arrives, the catch handler records the
error string and clears the loading flag, but the message still stays
flagged `isStreaming`. -/
theorem C2_theorem (st : ChatState) (content uid aid : String) (ts : Nat)
    (chunks body rest : List StreamChunk) (c : StreamChunk) (emsg : String)
    (hfresh : ∀ m ∈ st.messages, m.id ≠ aid) (huid : uid ≠ aid)
    (hchunks : ∀ x ∈ chunks, x.type ≠ "end" ∧ x.type ≠ "error")
    (hbody : ∀ x ∈ body, x.type ≠ "end" ∧ x.type ≠ "error")
    (hc : c.type = "error") (he : c.error = some emsg) :
    ((sendMessageStreaming st content uid aid ts chunks).isLoading = true ∧
      (sendMessageStreaming st content uid aid ts chunks).error = none ∧
      ∃ a, findMessage (sendMessageStreaming st content uid aid ts chunks) aid = some a ∧
        a.isStreaming = some true) ∧
    ((sendMessageStreaming st content uid aid ts (body ++ c :: rest)).isLoading = false ∧
      (sendMessageStreaming st content uid aid ts (body ++ c :: rest)).error = some emsg ∧
      ∃ a, findMessage
          (sendMessageStreaming st content uid aid ts (body ++ c :: rest)) aid = some a ∧
        a.isStreaming = some true) := by
  have hpre : ∀ m ∈ st.messages ++ [mkUserMessage uid content ts], m.id ≠ aid := by
    intro m hm
    rcases List.mem_append.mp hm with h | h
    · exact hfresh m h
    · rw [List.mem_singleton] at h
      rw [h]
      exact huid
  constructor
  · obtain ⟨acc2, st2, a2, hr, hm2, hid2, hstr2, hld2, herr2, _⟩ :=
      run_nonterminal aid chunks {}
        { messages := (st.messages ++ [mkUserMessage uid content ts]) ++
            [initialAssistantMessage aid ts],
          isLoading := true, error := none }
        (st.messages ++ [mkUserMessage uid content ts])
        (initialAssistantMessage aid ts)
        hchunks rfl hpre rfl rfl
    have hmain : sendMessageStreaming st content uid aid ts chunks = st2 := by
      show finalState (runChunks aid {}
          { messages := (st.messages ++ [mkUserMessage uid content ts]) ++
              [initialAssistantMessage aid ts],
            isLoading := true, error := none } chunks) = _
      rw [hr]
      rfl
    refine ⟨by rw [hmain]; exact hld2, by rw [hmain]; exact herr2,
      a2, by rw [hmain]; exact findMessage_append _ _ _ _ hm2 hpre hid2, hstr2⟩
  · obtain ⟨acc2, st2, a2, hr, hm2, hid2, hstr2, hld2, herr2, _⟩ :=
      run_nonterminal aid body {}
        { messages := (st.messages ++ [mkUserMessage uid content ts]) ++
            [initialAssistantMessage aid ts],
          isLoading := true, error := none }
        (st.messages ++ [mkUserMessage uid content ts])
        (initialAssistantMessage aid ts)
        hbody rfl hpre rfl rfl
    have hpc : processChunk aid acc2 st2 c = .threw emsg st2 := by
      simp [processChunk, hc, he]
    have hmain : sendMessageStreaming st content uid aid ts (body ++ c :: rest) =
        { st2 with isLoading := false, error := some emsg } := by
      show finalState (runChunks aid {}
          { messages := (st.messages ++ [mkUserMessage uid content ts]) ++
              [initialAssistantMessage aid ts],
            isLoading := true, error := none } (body ++ c :: rest)) = _
      rw [runChunks_append aid body (c :: rest) {} _, hr]
      show finalState (runChunks aid acc2 st2 (c :: rest)) = _
      rw [show runChunks aid acc2 st2 (c :: rest) =
          (match processChunk aid acc2 st2 c with
           | .cont acc3 st3 => runChunks aid acc3 st3 rest
           | .ended st3 => .done st3
           | .threw e st3 => .failed (catchHandler st3 e)) from rfl]
      rw [hpc]
      rfl
    have hmsgs : ({ st2 with isLoading := false, error := some emsg } : ChatState).messages
        = (st.messages ++ [mkUserMessage uid content ts]) ++ [a2] := hm2
    refine ⟨by rw [hmain], by rw [hmain],
      a2, by rw [hmain]; exact findMessage_append _ _ _ _ hmsgs hpre hid2, hstr2⟩

/-- C2 counterexample: the stream delivers one `thinking` delta and then
closes with no terminal event (disconnect).  Nothing fails: the loading
flag stays true, no error is recorded, and the assistant message is left
permanently streaming (`isStreaming = true`) instead of entering a failed
phase — the disconnect is silently swallowed. -/
theorem C2_counterexample :
    (sendMessageStreaming INITIAL_STATE "hello" "1" "2" 0
        [{ type := "thinking", content := some "Hmm" }]).isLoading = true ∧
    (sendMessageStreaming INITIAL_STATE "hello" "1" "2" 0
        [{ type := "thinking", content := some "Hmm" }]).error = none ∧
    findMessage (sendMessageStreaming INITIAL_STATE "hello" "1" "2" 0
        [{ type := "thinking", content := some "Hmm" }]) "2" =
      some { id := "2", content := .str "", role := "assistant", timestamp := 0,
             thinking := some "Hmm", isStreaming := some true,
             isThinking := some true } := by
  exact ⟨rfl, rfl, rfl⟩

/-- C5 (amended): malformed stream input is dropped silently, not surfaced:
an SSE line that is not a `data: ` line, or whose payload fails to decode,
contributes no chunk at all (no error chunk is synthesized, the stream
continues), and a decoded chunk whose type is none of the five protocol
tags is ignored by the assembler with no state change whatsoever. -/
theorem C5_theorem (aid : String) (acc : StreamAcc) (st : ChatState) (c : StreamChunk)
    (decode : String → Option StreamChunk) (l : String) (ls : List String)
    (hc1 : c.type ≠ "thinking") (hc2 : c.type ≠ "content") (hc3 : c.type ≠ "tools")
    (hc4 : c.type ≠ "error") (hc5 : c.type ≠ "end")
    (hl : l.startsWith "data: " = true → decode (l.drop 6) = none) :
    processChunk aid acc st c = .cont acc st ∧
    processSSELines decode (l :: ls) = processSSELines decode ls := by
  constructor
  · simp [processChunk, hc1, hc2, hc3, hc4, hc5]
  · unfold processSSELines
    rw [List.filterMap_cons]
    by_cases hsw : l.startsWith "data: " = true
    · rw [if_pos hsw, hl hsw]
    · rw [if_neg hsw]

/-- C5 counterexample: a stream containing an event that is not a protocol
event (unknown type tag) followed by `end` completes the turn normally:
no error is recorded, the loading flag clears, and the assistant message
finalizes in the done phase — the malformed event was silently dropped,
not surfaced as an error or failed phase. -/
theorem C5_counterexample :
    (sendMessageStreaming INITIAL_STATE "go" "1" "2" 0
        [{ type := "bogus_event" }, { type := "end" }]).error = none ∧
    (sendMessageStreaming INITIAL_STATE "go" "1" "2" 0
        [{ type := "bogus_event" }, { type := "end" }]).isLoading = false ∧
    findMessage (sendMessageStreaming INITIAL_STATE "go" "1" "2" 0
        [{ type := "bogus_event" }, { type := "end" }]) "2" =
      some { id := "2", content := .str "", role := "assistant", timestamp := 0,
             tool_calls := some [], files_created := some [], thinking := some "",
             isStreaming := some false, isThinking := some false,
             content_blocks := some [] } := by
  exact ⟨rfl, rfl, rfl⟩

/-- C1 witness: the amended theorem applied to a concrete run whose body
is a single `tools` event. -/
theorem C1_witness :
    (∀ c ∈ ([{ type := "tools" }] : List StreamChunk),
      c.type ≠ "end" ∧ c.type ≠ "error") ∧
    (∀ m ∈ INITIAL_STATE.messages, m.id ≠ "2") ∧
    ("1" : String) ≠ "2" ∧
    ((∃ a, findMessage (sendMessageStreaming INITIAL_STATE "make" "1" "2" 0
          (([{ type := "tools" }] : List StreamChunk) ++ [{ type := "end" }])) "2" =
            some a ∧
        a.isStreaming = some false ∧ a.isThinking = some false ∧
        a.tool_calls = some (lastToolsPayload [{ type := "tools" }]).1 ∧
        a.files_created = some (lastToolsPayload [{ type := "tools" }]).2.1 ∧
        a.content_blocks = some (lastToolsPayload [{ type := "tools" }]).2.2) ∧
      (sendMessageStreaming INITIAL_STATE "make" "1" "2" 0
          (([{ type := "tools" }] : List StreamChunk) ++ [{ type := "end" }])).isLoading
        = false ∧
      (∀ (cs : List StreamChunk) (c : StreamChunk), c.type = "tools" →
        lastToolsPayload (cs ++ [c]) = toolsSnapshotOf c) ∧
      ((∀ c ∈ ([{ type := "tools" }] : List StreamChunk), c.type ≠ "tools") →
        lastToolsPayload [{ type := "tools" }] = ([], [], []))) :=
  ⟨by decide, by decide, by decide,
    C1_theorem INITIAL_STATE "make" "1" "2" 0 [{ type := "tools" }]
      (by decide) (by decide) (by decide)⟩

/-- C2 witness: the amended theorem applied to a concrete disconnected
stream and a concrete erroring stream. -/
theorem C2_witness :
    (∀ m ∈ INITIAL_STATE.messages, m.id ≠ "2") ∧
    ("1" : String) ≠ "2" ∧
    (∀ x ∈ ([{ type := "thinking", content := some "Hmm" }] : List StreamChunk),
      x.type ≠ "end" ∧ x.type ≠ "error") ∧
    (∀ x ∈ ([] : List StreamChunk), x.type ≠ "end" ∧ x.type ≠ "error") ∧
    ({ type := "error", error := some "boom" } : StreamChunk).type = "error" ∧
    ({ type := "error", error := some "boom" } : StreamChunk).error = some "boom" ∧
    (((sendMessageStreaming INITIAL_STATE "hi" "1" "2" 0
          [{ type := "thinking", content := some "Hmm" }]).isLoading = true ∧
        (sendMessageStreaming INITIAL_STATE "hi" "1" "2" 0
          [{ type := "thinking", content := some "Hmm" }]).error = none ∧
        ∃ a, findMessage (sendMessageStreaming INITIAL_STATE "hi" "1" "2" 0
            [{ type := "thinking", content := some "Hmm" }]) "2" = some a ∧
          a.isStreaming = some true) ∧
      ((sendMessageStreaming INITIAL_STATE "hi" "1" "2" 0
          (([] : List StreamChunk) ++
            ({ type := "error", error := some "boom" } : StreamChunk) :: [])).isLoading
          = false ∧
        (sendMessageStreaming INITIAL_STATE "hi" "1" "2" 0
          (([] : List StreamChunk) ++
            ({ type := "error", error := some "boom" } : StreamChunk) :: [])).error
          = some "boom" ∧
        ∃ a, findMessage (sendMessageStreaming INITIAL_STATE "hi" "1" "2" 0
            (([] : List StreamChunk) ++
              ({ type := "error", error := some "boom" } : StreamChunk) :: [])) "2"
            = some a ∧ a.isStreaming = some true)) :=
  ⟨by decide, by decide, by decide, by decide, rfl, rfl,
    C2_theorem INITIAL_STATE "hi" "1" "2" 0
      [{ type := "thinking", content := some "Hmm" }] [] []
      { type := "error", error := some "boom" } "boom"
      (by decide) (by decide) (by decide) (by decide) rfl rfl⟩

/-- C3 witness: the reconciler theorem applied to concrete message lists,
a concrete payload entry, a concrete streaming message and a concrete
user message. -/
theorem C3_witness :
    ({ role := "user", content := .str "hi" } : HistEntry) ∈
      buildConversationHistory [mkUserMessage "1" "hi" 0, mkUserMessage "3" "bye" 0] ∧
    ({ id := "9", content := .str "", role := "assistant", timestamp := 0,
        isStreaming := some true } : Message).isStreaming = some true ∧
    ("5" : String) ≠ "welcome" ∧
    ((match ({ role := "user", content := .str "hi" } : HistEntry).content with
      | .str s => (jsTrim s).length > 0
      | .blocks bs => bs ≠ [] ∧ ∃ b ∈ bs, ∃ t, b.text = some t ∧ (jsTrim t).length > 0) ∧
      buildConversationHistory ([welcomeMessage] ++
          [{ id := "9", content := .str "", role := "assistant", timestamp := 0,
             isStreaming := some true }]) =
        buildConversationHistory [welcomeMessage] ∧
      buildConversationHistory ([mkUserMessage "1" "hi" 0] ++
          [mkUserMessage "5" "yo" 0]) =
        priorHistory [mkUserMessage "1" "hi" 0] ∧
      buildConversationHistory [mkUserMessage "1" "hi" 0,
          { id := "9", content := .str "", role := "assistant", timestamp := 0,
            isStreaming := some true }] =
        buildConversationHistory ([mkUserMessage "1" "hi" 0,
            { id := "9", content := .str "", role := "assistant", timestamp := 0,
              isStreaming := some true }].filter
          (fun x => !(x.isStreaming.getD false)))) :=
  ⟨by decide, rfl, by decide,
    C3_theorem [mkUserMessage "1" "hi" 0, mkUserMessage "3" "bye" 0]
      [welcomeMessage] [mkUserMessage "1" "hi" 0]
      [mkUserMessage "1" "hi" 0,
        { id := "9", content := .str "", role := "assistant", timestamp := 0,
          isStreaming := some true }]
      { role := "user", content := .str "hi" }
      { id := "9", content := .str "", role := "assistant", timestamp := 0,
        isStreaming := some true }
      "5" "yo" 0 (by decide) rfl (by decide)⟩

/-- C4 witness: the buffer-extension theorem applied right after a
concrete `tools` event. -/
theorem C4_witness :
    runChunks "2" {} { messages := [], isLoading := true, error := none }
        [{ type := "tools" }] =
      .running { streamedContent := "", thinkingContent := "", toolCalls := [],
                 filesCreated := [], contentBlocks := [] }
        { messages := [], isLoading := true, error := none } ∧
    ({ type := "thinking", content := some "a" } : StreamChunk).type = "thinking" ∧
    ({ type := "thinking", content := some "a" } : StreamChunk).content = some "a" ∧
    ({ type := "content", content := some "b" } : StreamChunk).type = "content" ∧
    ({ type := "content", content := some "b" } : StreamChunk).content = some "b" ∧
    ((∃ st3, runChunks "2" {} { messages := [], isLoading := true, error := none }
          ([{ type := "tools" }] ++ [{ type := "thinking", content := some "a" }]) =
        .running { ({ streamedContent := "", thinkingContent := "", toolCalls := [],
                      filesCreated := [], contentBlocks := [] } : StreamAcc) with
            thinkingContent :=
              ({ streamedContent := "", thinkingContent := "", toolCalls := [],
                 filesCreated := [], contentBlocks := [] } : StreamAcc).thinkingContent
                ++ "a" ++ " " } st3) ∧
      (∃ st3, runChunks "2" {} { messages := [], isLoading := true, error := none }
          ([{ type := "tools" }] ++ [{ type := "content", content := some "b" }]) =
        .running { ({ streamedContent := "", thinkingContent := "", toolCalls := [],
                      filesCreated := [], contentBlocks := [] } : StreamAcc) with
            streamedContent :=
              ({ streamedContent := "", thinkingContent := "", toolCalls := [],
                 filesCreated := [], contentBlocks := [] } : StreamAcc).streamedContent
                ++ "b" ++ " " } st3)) :=
  ⟨rfl, rfl, rfl, rfl, rfl,
    C4_theorem "2" {} { messages := [], isLoading := true, error := none }
      [{ type := "tools" }]
      { streamedContent := "", thinkingContent := "", toolCalls := [],
        filesCreated := [], contentBlocks := [] }
      { messages := [], isLoading := true, error := none }
      { type := "thinking", content := some "a" }
      { type := "content", content := some "b" } "a" "b" rfl rfl rfl rfl rfl⟩

/-- C5 witness: the silent-drop theorem applied to a concrete chunk with
an unknown type tag and a concrete undecodable SSE line. -/
theorem C5_witness :
    ({ type := "tool_result" } : StreamChunk).type ≠ "thinking" ∧
    ({ type := "tool_result" } : StreamChunk).type ≠ "content" ∧
    ({ type := "tool_result" } : StreamChunk).type ≠ "tools" ∧
    ({ type := "tool_result" } : StreamChunk).type ≠ "error" ∧
    ({ type := "tool_result" } : StreamChunk).type ≠ "end" ∧
    (("data: oops".startsWith "data: ") = true →
      (fun (_ : String) => (none : Option StreamChunk)) ("data: oops".drop 6) = none) ∧
    (processChunk "2" {} { messages := [], isLoading := true, error := none }
        { type := "tool_result" } =
      .cont {} { messages := [], isLoading := true, error := none } ∧
    processSSELines (fun (_ : String) => (none : Option StreamChunk)) ("data: oops" :: []) =
      processSSELines (fun (_ : String) => (none : Option StreamChunk)) []) :=
  ⟨by decide, by decide, by decide, by decide, by decide, fun _ => rfl,
    C5_theorem "2" {} { messages := [], isLoading := true, error := none }
      { type := "tool_result" } (fun _ => none) "data: oops" []
      (by decide) (by decide) (by decide) (by decide) (by decide) (fun _ => rfl)⟩

/-- C6 witness: the history-mapping theorem applied to a concrete
assistant message with a structured form, a concrete message without one,
and a concrete user message. -/
theorem C6_witness :
    ({ id := "a", content := .str "x", role := "assistant", timestamp := 0,
        content_blocks := some [{ type := "text", text := some "x" }] } :
        Message).content_blocks = some [{ type := "text", text := some "x" }] ∧
    (mkUserMessage "1" "hi" 0).content_blocks = none ∧
    (mkUserMessage "1" "hi" 0).content = .str "hi" ∧
    ((toHistoryEntry
        { id := "a", content := .str "x", role := "assistant", timestamp := 0,
          content_blocks := some [{ type := "text", text := some "x" }] }).content =
        .blocks [{ type := "text", text := some "x" }] ∧
      (toHistoryEntry (mkUserMessage "1" "hi" 0)).content = .str "hi" ∧
      toHistoryEntry (mkUserMessage "3" "yo" 0) =
        { role := "user", content := .str "yo" }) :=
  ⟨rfl, rfl, rfl,
    C6_theorem
      { id := "a", content := .str "x", role := "assistant", timestamp := 0,
        content_blocks := some [{ type := "text", text := some "x" }] }
      (mkUserMessage "1" "hi" 0)
      [{ type := "text", text := some "x" }] "hi" "3" "yo" 0 rfl rfl rfl⟩

/-- C7 witness: the per-delta theorem applied with concrete non-empty
buffers and a concrete in-progress assistant message. -/
theorem C7_witness :
    ({ type := "thinking", content := some "a" } : StreamChunk).type = "thinking" ∧
    ({ type := "thinking", content := some "a" } : StreamChunk).content = some "a" ∧
    ({ type := "content", content := some "b" } : StreamChunk).type = "content" ∧
    ({ type := "content", content := some "b" } : StreamChunk).content = some "b" ∧
    ((∃ acc2 st2, processChunk "2"
          { streamedContent := "S ", thinkingContent := "T " }
          { messages := [initialAssistantMessage "2" 0], isLoading := true, error := none }
          { type := "thinking", content := some "a" } = .cont acc2 st2 ∧
        acc2.thinkingContent =
          ({ streamedContent := "S ", thinkingContent := "T " } :
            StreamAcc).thinkingContent ++ "a" ++ " " ∧
        acc2.streamedContent =
          ({ streamedContent := "S ", thinkingContent := "T " } :
            StreamAcc).streamedContent ∧
        (∀ m ∈ st2.messages, m.id = "2" →
          m.isThinking = some true ∧ m.thinking = some (jsTrim acc2.thinkingContent)) ∧
        st2.messages.map (fun m => m.content) =
          ({ messages := [initialAssistantMessage "2" 0], isLoading := true,
             error := none } : ChatState).messages.map (fun m => m.content)) ∧
      (∃ acc2 st2, processChunk "2"
          { streamedContent := "S ", thinkingContent := "T " }
          { messages := [initialAssistantMessage "2" 0], isLoading := true, error := none }
          { type := "content", content := some "b" } = .cont acc2 st2 ∧
        acc2.streamedContent =
          ({ streamedContent := "S ", thinkingContent := "T " } :
            StreamAcc).streamedContent ++ "b" ++ " " ∧
        acc2.thinkingContent =
          ({ streamedContent := "S ", thinkingContent := "T " } :
            StreamAcc).thinkingContent ∧
        (∀ m ∈ st2.messages, m.id = "2" →
          m.isThinking = some false ∧ m.content = .str (jsTrim acc2.streamedContent)) ∧
        st2.messages.map (fun m => m.thinking) =
          ({ messages := [initialAssistantMessage "2" 0], isLoading := true,
             error := none } : ChatState).messages.map (fun m => m.thinking))) :=
  ⟨rfl, rfl, rfl, rfl,
    C7_theorem "2" { streamedContent := "S ", thinkingContent := "T " }
      { messages := [initialAssistantMessage "2" 0], isLoading := true, error := none }
      { type := "thinking", content := some "a" }
      { type := "content", content := some "b" } "a" "b" rfl rfl rfl rfl⟩

/-- C8 witness: the space-joining theorem applied to two concrete delta
sequences. -/
theorem C8_witness :
    (["Hello", "world"] : List String) ≠ [] ∧
    (["I", "think"] : List String) ≠ [] ∧
    ((∃ acc2 st2, runChunks "2" {}
          { messages := [initialAssistantMessage "2" 0], isLoading := true, error := none }
          (thinkingChunks ["Hello", "world"]) = .running acc2 st2 ∧
        acc2.thinkingContent = joinWithSpaces ["Hello", "world"] ++ " " ∧
        acc2.streamedContent = "" ∧
        ∀ m ∈ st2.messages, m.id = "2" →
          m.thinking = some (jsTrim (joinWithSpaces ["Hello", "world"]))) ∧
      (∃ acc2 st2, runChunks "2" {}
          { messages := [initialAssistantMessage "2" 0], isLoading := true, error := none }
          (contentChunks ["I", "think"]) = .running acc2 st2 ∧
        acc2.streamedContent = joinWithSpaces ["I", "think"] ++ " " ∧
        acc2.thinkingContent = "" ∧
        ∀ m ∈ st2.messages, m.id = "2" →
          m.content = .str (jsTrim (joinWithSpaces ["I", "think"])))) :=
  ⟨by decide, by decide,
    C8_theorem "2"
      { messages := [initialAssistantMessage "2" 0], isLoading := true, error := none }
      ["Hello", "world"] ["I", "think"] (by decide) (by decide)⟩

/-- C9 witness: the welcome-exclusion theorem applied to the actual
welcome message sitting in front of a concrete user message. -/
theorem C9_witness :
    welcomeMessage.id = "welcome" ∧
    (buildConversationHistory ([] ++ welcomeMessage :: [mkUserMessage "1" "hi" 0]) =
        buildConversationHistory ([] ++ [mkUserMessage "1" "hi" 0]) ∧
      requestHistory
          { messages := [] ++ welcomeMessage :: [mkUserMessage "1" "hi" 0],
            isLoading := false, error := none } "c" "9" 0 =
        requestHistory
          { messages := [] ++ [mkUserMessage "1" "hi" 0],
            isLoading := false, error := none } "c" "9" 0 ∧
      welcomeMessage ∈ INITIAL_STATE.messages ∧ welcomeMessage.id = "welcome") :=
  ⟨rfl,
    C9_theorem [] [mkUserMessage "1" "hi" 0] welcomeMessage rfl false none "c" "9" 0⟩

/-- C10 witness: the frame theorem applied after one concrete thinking
delta followed by a concrete error event. -/
theorem C10_witness :
    runChunks "2" {} { messages := [], isLoading := true, error := none }
        [{ type := "thinking", content := some "Hmm" }] =
      .running { streamedContent := "", thinkingContent := "Hmm ", toolCalls := [],
                 filesCreated := [], contentBlocks := [] }
        { messages := [], isLoading := true, error := none } ∧
    ({ type := "error", error := some "boom" } : StreamChunk).type = "error" ∧
    ({ type := "error", error := some "boom" } : StreamChunk).error = some "boom" ∧
    (runChunks "2" {} { messages := [], isLoading := true, error := none }
        ([{ type := "thinking", content := some "Hmm" }] ++
          ({ type := "error", error := some "boom" } : StreamChunk) :: []) =
      .failed
        { ({ messages := [], isLoading := true, error := none } : ChatState) with
          isLoading := false, error := some "boom" } ∧
    (finalState (runChunks "2" {} { messages := [], isLoading := true, error := none }
        ([{ type := "thinking", content := some "Hmm" }] ++
          ({ type := "error", error := some "boom" } : StreamChunk) :: []))).messages =
      ({ messages := [], isLoading := true, error := none } : ChatState).messages ∧
    (finalState (runChunks "2" {} { messages := [], isLoading := true, error := none }
        ([{ type := "thinking", content := some "Hmm" }] ++
          ({ type := "error", error := some "boom" } : StreamChunk) :: []))).isLoading =
      false ∧
    (finalState (runChunks "2" {} { messages := [], isLoading := true, error := none }
        ([{ type := "thinking", content := some "Hmm" }] ++
          ({ type := "error", error := some "boom" } : StreamChunk) :: []))).error =
      some "boom") :=
  ⟨rfl, rfl, rfl,
    C10_theorem "2" {}
      { streamedContent := "", thinkingContent := "Hmm ", toolCalls := [],
        filesCreated := [], contentBlocks := [] }
      { messages := [], isLoading := true, error := none }
      { messages := [], isLoading := true, error := none }
      [{ type := "thinking", content := some "Hmm" }] []
      { type := "error", error := some "boom" } "boom" rfl rfl rfl⟩

end WorldbuildingChat
